import Mathlib

/-!
Shallow embedding of the Earnings-Dashboard ingestion and aggregation pipeline
(src/app.py).  Finite Python float values are modelled as exact rationals; the
float values that the amount pipeline can observe, including the NaN and
infinity results of the CPython float constructor and of pandas aggregation,
are modelled by the PyFloat type below.  The duration parser builds its result
from int conversions and a division by 60 and therefore only ever produces
finite values, so it is modelled directly in ℚ.  A Python exception that a
function catches internally is modelled by a Boolean error flag; an exception
that aborts an operation is modelled by Option.
-/

/-- Outcome of one of the two field parsers: the numeric value returned to the
caller together with whether a ParseError was signalled (st.error invoked). -/
structure ParseOutcome where
  value : ℚ
  errored : Bool
deriving DecidableEq

/-- Accumulator-based splitter modelling the Python method str.split() with no
separator argument: tokens are maximal runs of non-whitespace characters, and
empty tokens never occur. -/
def splitWsAux : List Char → List Char → List (List Char)
  | [], acc => if acc = [] then [] else [acc.reverse]
  | c :: cs, acc =>
    if c.isWhitespace then
      if acc = [] then splitWsAux cs []
      else acc.reverse :: splitWsAux cs []
    else splitWsAux cs (c :: acc)

/-- Python str.split() on a list of characters. -/
def pySplit (l : List Char) : List (List Char) := splitWsAux l []

/-- Python str.strip(): drop leading and trailing whitespace. -/
def pyStrip (l : List Char) : List Char :=
  ((l.dropWhile Char.isWhitespace).reverse.dropWhile Char.isWhitespace).reverse

/-- Numeric value of a decimal digit character. -/
def digitVal (c : Char) : Nat := c.toNat - 48

/-- Value of a list of decimal digit characters read in base 10. -/
def digitsVal (l : List Char) : Nat := l.foldl (fun acc c => acc * 10 + digitVal c) 0

/-- Nonempty all-digit character runs and their value; anything else is
rejected.  Together with the sign handling below this models the fragment of
the CPython int constructor that this pipeline can meet (underscore grouping
and non-ASCII digits are not modelled). -/
def decDigits? (l : List Char) : Option Nat :=
  if l ≠ [] ∧ l.all Char.isDigit then some (digitsVal l) else none

/-- Sign dispatch of the CPython int constructor after stripping. -/
def pyIntCore (l : List Char) : Option Int :=
  match l with
  | [] => none
  | c :: cs =>
    if c = '-' then (decDigits? cs).map (fun n : Nat => -(n : Int))
    else if c = '+' then (decDigits? cs).map (fun n : Nat => (n : Int))
    else (decDigits? (c :: cs)).map (fun n : Nat => (n : Int))

/-- CPython int(str) on the modelled fragment: surrounding whitespace, an
optional sign, then a nonempty run of decimal digits. -/
def pyInt (l : List Char) : Option Int := pyIntCore (pyStrip l)

/-- A CPython float value as this pipeline can observe it: a finite value
(an exact rational, so IEEE rounding is not modelled), NaN, or a signed
infinity. -/
inductive PyFloat where
  | num (q : ℚ)
  | nan
  | inf (neg : Bool)
deriving DecidableEq

/-- IEEE sign flip, applied by the float constructor to a leading minus. -/
def PyFloat.negate : PyFloat → PyFloat
  | .num q => .num (-q)
  | .nan => .nan
  | .inf b => .inf (!b)

/-- Whether the float compares greater-or-equal to zero.  As in IEEE
arithmetic every comparison with NaN is false, a positive infinity compares
nonnegative and a negative infinity does not. -/
def PyFloat.isNonneg : PyFloat → Bool
  | .num q => decide (0 ≤ q)
  | .nan => false
  | .inf b => !b

/-- Whether the float is NaN. -/
def PyFloat.isNan : PyFloat → Bool
  | .nan => true
  | _ => false

/-- IEEE addition on the observable float values. -/
def PyFloat.add : PyFloat → PyFloat → PyFloat
  | .nan, _ => .nan
  | _, .nan => .nan
  | .inf b1, .inf b2 => if b1 = b2 then .inf b1 else .nan
  | .inf b, .num _ => .inf b
  | .num _, .inf b => .inf b
  | .num a, .num b => .num (a + b)

/-- Division of a float by a positive rational, as used for the mean and for
the hourly rate (the divisor there is a positive count or positive minutes). -/
def PyFloat.divPos : PyFloat → ℚ → PyFloat
  | .num a, x => .num (a / x)
  | .nan, _ => .nan
  | .inf b, _ => .inf b

/-- Unsigned decimal literals: digits, optionally with a decimal point that may
have digits missing on one side but not both.  Exponent forms are not
modelled; the NaN and infinity spellings are handled by pyFloatBody below;
values are exact rationals, so IEEE rounding is not modelled. -/
def decFrac? (l : List Char) : Option ℚ :=
  let ip := l.takeWhile (fun c => decide (c ≠ '.'))
  match l.dropWhile (fun c => decide (c ≠ '.')) with
  | [] => if ip ≠ [] ∧ ip.all Char.isDigit then some (digitsVal ip : ℚ) else none
  | _ :: fp =>
    if (ip ≠ [] ∨ fp ≠ []) ∧ ip.all Char.isDigit ∧ fp.all Char.isDigit then
      some ((digitsVal ip : ℚ) + (digitsVal fp : ℚ) / (10 : ℚ) ^ fp.length)
    else none

/-- Case-insensitive match of the three-letter NaN spelling accepted by the
CPython float constructor (nan, NaN, NAN, nAn, ...). -/
def isNanSpelling (l : List Char) : Bool :=
  match l with
  | [c1, c2, c3] =>
    (c1 == 'n' || c1 == 'N') && (c2 == 'a' || c2 == 'A') && (c3 == 'n' || c3 == 'N')
  | _ => false

/-- Case-insensitive match of the inf and infinity spellings accepted by the
CPython float constructor. -/
def isInfSpelling (l : List Char) : Bool :=
  match l with
  | [c1, c2, c3] =>
    (c1 == 'i' || c1 == 'I') && (c2 == 'n' || c2 == 'N') && (c3 == 'f' || c3 == 'F')
  | [c1, c2, c3, c4, c5, c6, c7, c8] =>
    (c1 == 'i' || c1 == 'I') && (c2 == 'n' || c2 == 'N') && (c3 == 'f' || c3 == 'F') &&
    (c4 == 'i' || c4 == 'I') && (c5 == 'n' || c5 == 'N') && (c6 == 'i' || c6 == 'I') &&
    (c7 == 't' || c7 == 'T') && (c8 == 'y' || c8 == 'Y')
  | _ => false

/-- Body of the CPython float constructor after stripping and sign handling:
a NaN spelling, an infinity spelling, or an unsigned decimal literal. -/
def pyFloatBody (l : List Char) : Option PyFloat :=
  if isNanSpelling l then some .nan
  else if isInfSpelling l then some (.inf false)
  else (decFrac? l).map PyFloat.num

/-- Sign dispatch of the CPython float constructor after stripping. -/
def pyFloatCore (l : List Char) : Option PyFloat :=
  match l with
  | [] => none
  | c :: cs =>
    if c = '-' then (pyFloatBody cs).map PyFloat.negate
    else if c = '+' then pyFloatBody cs
    else pyFloatBody (c :: cs)

/-- CPython float(str) on the modelled fragment. -/
def pyFloat (l : List Char) : Option PyFloat := pyFloatCore (pyStrip l)

/-- Loop of parse_duration (src/app.py lines 62-70): a token containing the
letter m is treated as minutes (every m character deleted, then int), else a
token containing s is treated as seconds (value divided by 60), else the token
is skipped; the first failing int conversion aborts the whole parse, the
function returns 0 and a ParseError is signalled. -/
def parse_duration_go : List (List Char) → ℚ → ParseOutcome
  | [], acc => ⟨acc, false⟩
  | t :: ts, acc =>
    if 'm' ∈ t then
      match pyInt (t.filter (fun c => decide (c ≠ 'm'))) with
      | some n => parse_duration_go ts (acc + (n : ℚ))
      | none => ⟨0, true⟩
    else if 's' ∈ t then
      match pyInt (t.filter (fun c => decide (c ≠ 's'))) with
      | some n => parse_duration_go ts (acc + (n : ℚ) / 60)
      | none => ⟨0, true⟩
    else parse_duration_go ts acc

/-- parse_duration (src/app.py lines 60-73). -/
def parse_duration (s : String) : ParseOutcome :=
  parse_duration_go (pySplit s.toList) 0

/-- Outcome of the amount parser: the float value returned to the caller
(finite, NaN or infinite) together with whether a ParseError was signalled
(st.error invoked). -/
structure AmountOutcome where
  value : PyFloat
  errored : Bool
deriving DecidableEq

/-- parse_amount (src/app.py lines 75-81): delete every dollar sign and every
comma, then convert with float(); on failure return 0.0 and signal a
ParseError.  A NaN or infinity spelling converts successfully and is returned
with no error. -/
def parse_amount (s : String) : AmountOutcome :=
  match pyFloat ((s.toList.filter (fun c => decide (c ≠ '$'))).filter (fun c => decide (c ≠ ','))) with
  | some v => ⟨v, false⟩
  | none => ⟨.num 0, true⟩

/-- The amount parser as the spec and claim C6 word it: strip one LEADING
dollar sign only, delete every comma, then parse as a float, returning 0 with a
ParseError on failure.  This definition follows the words of the claim, to be
compared against parse_amount, which is translated from the source. -/
def parse_amount_leading (s : String) : AmountOutcome :=
  match pyFloat ((match s.toList with
      | '$' :: rest => rest
      | l => l).filter (fun c => decide (c ≠ ','))) with
  | some v => ⟨v, false⟩
  | none => ⟨.num 0, true⟩

/-- The amount parser as the amended claim words it: delete every comma and
every dollar sign anywhere in the input, then parse as a float, returning 0
with a ParseError on failure.  Written from the amended words (with the two
deletions in the opposite order) to be compared against parse_amount. -/
def parse_amount_desc (s : String) : AmountOutcome :=
  match pyFloat ((s.toList.filter (fun c => decide (c ≠ ','))).filter (fun c => decide (c ≠ '$'))) with
  | some v => ⟨v, false⟩
  | none => ⟨.num 0, true⟩

structure Date where
  year : Nat
  month : Nat
  day : Nat
deriving DecidableEq

/-- Modelled fragment of pandas to_datetime: ISO dates of the form YYYY-MM-DD.
Failure of any row aborts save_uploaded_data, matching the exception raised by
pandas on an unparseable date. -/
def parseDate (s : String) : Option Date :=
  match s.toList with
  | [y1, y2, y3, y4, h1, m1, m2, h2, d1, d2] =>
    if h1 = '-' ∧ h2 = '-' ∧ [y1, y2, y3, y4, m1, m2, d1, d2].all Char.isDigit ∧
        1 ≤ digitsVal [m1, m2] ∧ digitsVal [m1, m2] ≤ 12 ∧
        1 ≤ digitsVal [d1, d2] ∧ digitsVal [d1, d2] ≤ 31 then
      some ⟨digitsVal [y1, y2, y3, y4], digitsVal [m1, m2], digitsVal [d1, d2]⟩
    else none
  | _ => none

/-- Zero-padded two-digit decimal rendering (strftime %m and %d). -/
def pad2 (n : Nat) : String := if n < 10 then "0" ++ toString n else toString n

/-- Zero-padded four-digit decimal rendering (strftime %Y). -/
def pad4 (n : Nat) : String :=
  if n < 10 then "000" ++ toString n
  else if n < 100 then "00" ++ toString n
  else if n < 1000 then "0" ++ toString n
  else toString n

/-- strftime with format %Y-%m (src/app.py line 101). -/
def fmtMonthYear (d : Date) : String := pad4 d.year ++ "-" ++ pad2 d.month

/-- strftime with format %Y-%m-%d (src/app.py line 104). -/
def fmtDate (d : Date) : String := fmtMonthYear d ++ "-" ++ pad2 d.day

/-- A stored row of the work_data table: the WorkRecord of the spec. -/
structure WorkRecord where
  username : String
  workDate : String
  duration : String
  duration_minutes : ℚ
  payout : String
  payout_amount : PyFloat
  payType : String
  status : String
  month_year : String
  itemID : Option String
deriving DecidableEq

/-- One raw CSV row as uploaded.  The username field models the content of a
username-like column of the upload; the ingestion code never reads it. -/
structure RawRow where
  workDate : String
  duration : String
  payout : String
  payType : String
  status : String
  itemID : Option String
  itemId : Option String
  username : Option String
deriving DecidableEq

/-- A raw uploaded batch: the header (column names) and the rows. -/
structure RawBatch where
  cols : List String
  rows : List RawRow
deriving DecidableEq

/-- Forget the content of the username-like column of a raw row. -/
def eraseUser (r : RawRow) : RawRow := { r with username := none }

/-- The required column set of validate_dataframe (src/app.py line 85). -/
def required_columns : List String :=
  ["workDate", "duration", "payout", "payType", "status"]

/-- The Python set difference required_columns - df.columns
(src/app.py line 86). -/
def missing_columns (cols : List String) : List String :=
  required_columns.filter (fun c => decide (c ∉ cols))

/-- validate_dataframe (src/app.py lines 83-91): raises an error listing the
missing required columns, otherwise returns True. -/
def validate_dataframe (cols : List String) : Except (List String) Bool :=
  if missing_columns cols = [] then .ok true else .error (missing_columns cols)

/-- Option-valued map that fails as a whole when any element fails, modelling
an exception aborting the row-processing loop of save_uploaded_data before
anything is inserted. -/
def mapOrNone (f : α → Option β) : List α → Option (List β)
  | [] => some []
  | a :: rest =>
    match f a, mapOrNone f rest with
    | some b, some bs => some (b :: bs)
    | _, _ => none

/-- Per-row processing of save_uploaded_data (src/app.py lines 96-125): stamp
the authenticated username over any uploaded value, parse the work date
(failure aborts the save), derive duration_minutes, payout_amount and
month_year, and resolve the itemID column (itemID, else itemId, else absent,
case-sensitively). -/
def normalize_row (cols : List String) (username : String) (r : RawRow) :
    Option WorkRecord :=
  match parseDate r.workDate with
  | none => none
  | some d =>
    some
      { username := username
        workDate := fmtDate d
        duration := r.duration
        duration_minutes := (parse_duration r.duration).value
        payout := r.payout
        payout_amount := (parse_amount r.payout).value
        payType := r.payType
        status := r.status
        month_year := fmtMonthYear d
        itemID :=
          if "itemID" ∈ cols then r.itemID
          else if "itemId" ∈ cols then r.itemId
          else none }

/-- save_uploaded_data (src/app.py lines 93-139) restricted to its pure part:
the records inserted into the work_data table, or none when an exception (an
unparseable workDate) aborts the save before the insert. -/
def save_uploaded_data (b : RawBatch) (username : String) :
    Option (List WorkRecord) :=
  mapOrNone (normalize_row b.cols username) b.rows

inductive UploadError where
  | missingColumns (missing : List String)
  | saveFailed
deriving DecidableEq

/-- The upload path of show_dashboard (src/app.py lines 458-466): validation
runs first and a failure rejects the whole upload with nothing persisted; a
successful save appends the new records to the stored collection (the Supabase
insert into work_data). -/
def ingest (store : List WorkRecord) (b : RawBatch) (username : String) :
    List WorkRecord × Option UploadError :=
  match validate_dataframe b.cols with
  | .error missing => (store, some (.missingColumns missing))
  | .ok _ =>
    match save_uploaded_data b username with
    | none => (store, some .saveFailed)
    | some recs => (store ++ recs, none)

/-- The clear-data branch of show_dashboard (src/app.py lines 479-487): the
delete on work_data filtered to the username runs only when the role is not
admin; for an admin the stored records are untouched. -/
def clear_data (store : List WorkRecord) (username role : String) :
    List WorkRecord :=
  if role = "admin" then store
  else store.filter (fun r => decide (r.username ≠ username))

/-- pandas Series.sum on a float column: NaN entries are skipped (skipna is
the default), the remaining entries are added in IEEE arithmetic, and the
empty sum is 0. -/
def pySumF (l : List PyFloat) : PyFloat :=
  (l.filter (fun x => ! x.isNan)).foldl PyFloat.add (.num 0)

/-- pandas Series.mean on a float column: NaN entries are skipped; when no
entry remains the mean is NaN, otherwise it is the sum divided by the count
of the remaining entries. -/
def pyMeanF (l : List PyFloat) : PyFloat :=
  if (l.filter (fun x => ! x.isNan)).length = 0 then .nan
  else (pySumF l).divPos ((l.filter (fun x => ! x.isNan)).length : ℚ)

/-- pandas Series.nunique on a string column. -/
def nunique (l : List String) : Nat := l.dedup.length

structure UserMetrics where
  total_earnings : PyFloat
  total_time_minutes : ℚ
  days_worked : Nat
  average_earning : PyFloat
  total_tasks : Nat
deriving DecidableEq

/-- calculate_user_metrics (src/app.py lines 169-188).  The except fallback of
the source is unreachable here: on a well-typed record list none of the five
aggregations raises, and the mean of an empty column is NaN, not an error. -/
def calculate_user_metrics (records : List WorkRecord) : UserMetrics :=
  { total_earnings := pySumF (records.map (fun r => r.payout_amount))
    total_time_minutes := (records.map (fun r => r.duration_minutes)).sum
    days_worked := nunique (records.map (fun r => r.workDate))
    average_earning := pyMeanF (records.map (fun r => r.payout_amount))
    total_tasks := records.length }

/-- The avg_hourly_rate derivation of show_admin_dashboard
(src/app.py lines 301-303), with its division-by-zero guard. -/
def avg_hourly_rate (m : UserMetrics) : PyFloat :=
  if 0 < m.total_time_minutes then
    m.total_earnings.divPos (m.total_time_minutes / 60)
  else .num 0

/-! Concrete example data used by witnesses and counterexamples. -/

/-- A raw row whose duration carries a negative minute token. -/
def rowNeg : RawRow :=
  ⟨"2024-01-15", "-5m", "$1.00", "payPerTask", "approved", none, none, none⟩

/-- A validated batch containing rowNeg. -/
def batchNeg : RawBatch :=
  ⟨["workDate", "duration", "payout", "payType", "status"], [rowNeg]⟩

/-- A well-formed raw row that also carries a username-like column value. -/
def rowPos : RawRow :=
  ⟨"2024-02-03", "1m", "$2", "hourly", "approved", none, none, some "mallory"⟩

/-- A validated batch containing rowPos, with a username column present. -/
def batchPos : RawBatch :=
  ⟨["workDate", "duration", "payout", "payType", "status", "username"], [rowPos]⟩

/-- The same upload as batchPos except for the username-like column value. -/
def rowU2 : RawRow :=
  ⟨"2024-02-03", "1m", "$2", "hourly", "approved", none, none, some "victim"⟩

def batchU2 : RawBatch :=
  ⟨["workDate", "duration", "payout", "payType", "status", "username"], [rowU2]⟩

/-- The record that ingesting batchPos as alice stores. -/
def recPos : WorkRecord :=
  ⟨"alice", "2024-02-03", "1m", 1, "$2", .num 2, "hourly", "approved",
   "2024-02", none⟩

/-- A raw row whose payout is an upper-case NaN spelling, which the CPython
float constructor converts successfully. -/
def rowNan : RawRow :=
  ⟨"2024-03-05", "2m", "NAN", "bonus", "paid", none, none, none⟩

/-- A validated batch containing rowNan. -/
def batchNan : RawBatch :=
  ⟨["workDate", "duration", "payout", "payType", "status"], [rowNan]⟩

/-- A batch whose header lacks the payout column. -/
def batchMissing : RawBatch :=
  ⟨["workDate", "duration", "payType", "status"], []⟩

/-- Stored records of three users, used by the clear-data theorems. -/
def recBob : WorkRecord :=
  ⟨"bob", "2024-01-15", "5m", 5, "$2.00", .num 2, "hourly", "paid",
   "2024-01", none⟩

def recCarol : WorkRecord :=
  ⟨"carol", "2024-01-16", "6m", 6, "$3.00", .num 3, "hourly", "paid",
   "2024-01", none⟩

def recRoot : WorkRecord :=
  ⟨"root", "2024-01-17", "7m", 7, "$4.00", .num 4, "hourly", "paid",
   "2024-01", none⟩

/-! Helper lemmas about the splitter and the numeric parsers. -/

/-- Characters of any token produced by splitWsAux come from the input or the
accumulator. -/
theorem splitWsAux_mem_subset {c : Char} :
    ∀ (l acc t : List Char), t ∈ splitWsAux l acc → c ∈ t → c ∈ l ∨ c ∈ acc := by
  intro l
  induction l with
  | nil =>
    intro acc t ht hc
    by_cases h : acc = []
    · simp [splitWsAux, h] at ht
    · simp only [splitWsAux, if_neg h, List.mem_singleton] at ht
      subst ht
      exact Or.inr (List.mem_reverse.mp hc)
  | cons x xs ih =>
    intro acc t ht hc
    by_cases hw : x.isWhitespace
    · by_cases h : acc = []
      · simp only [splitWsAux, if_pos hw, if_pos h] at ht
        rcases ih [] t ht hc with h1 | h1
        · exact Or.inl (List.mem_cons_of_mem _ h1)
        · simp at h1
      · simp only [splitWsAux, if_pos hw, if_neg h, List.mem_cons] at ht
        rcases ht with ht | ht
        · subst ht
          exact Or.inr (List.mem_reverse.mp hc)
        · rcases ih [] t ht hc with h1 | h1
          · exact Or.inl (List.mem_cons_of_mem _ h1)
          · simp at h1
    · simp only [splitWsAux, if_neg hw] at ht
      rcases ih (x :: acc) t ht hc with h1 | h1
      · exact Or.inl (List.mem_cons_of_mem _ h1)
      · rcases List.mem_cons.mp h1 with h2 | h2
        · exact Or.inl (by simp [h2])
        · exact Or.inr h2

/-- Characters of any token of pySplit come from the input. -/
theorem mem_of_mem_pySplit {c : Char} {l t : List Char}
    (ht : t ∈ pySplit l) (hc : c ∈ t) : c ∈ l := by
  rcases splitWsAux_mem_subset l [] t ht hc with h | h
  · exact h
  · simp at h

/-- On whitespace-free input the splitter returns the input as its only token
(or nothing when the input is empty). -/
theorem splitWsAux_of_no_ws :
    ∀ (l acc : List Char), (∀ c ∈ l, c.isWhitespace = false) →
      splitWsAux l acc =
        if acc.reverse ++ l = [] then [] else [acc.reverse ++ l] := by
  intro l
  induction l with
  | nil =>
    intro acc _
    simp only [splitWsAux, List.append_nil]
    by_cases h : acc = []
    · simp [h]
    · rw [if_neg h, if_neg (by simp [h])]
  | cons x xs ih =>
    intro acc h
    have hx : x.isWhitespace = false := h x (by simp)
    have hxs : ∀ c ∈ xs, c.isWhitespace = false := fun c hc => h c (by simp [hc])
    simp only [splitWsAux, hx, Bool.false_eq_true, if_false]
    rw [ih (x :: acc) hxs]
    have h1 : (x :: acc).reverse ++ xs = acc.reverse ++ (x :: xs) := by
      simp [List.reverse_cons, List.append_assoc]
    rw [h1]

/-- A nonempty whitespace-free string is a single token. -/
theorem pySplit_single {t : List Char}
    (hws : ∀ c ∈ t, c.isWhitespace = false) (hne : t ≠ []) : pySplit t = [t] := by
  unfold pySplit
  rw [splitWsAux_of_no_ws t [] hws]
  simp [hne]

/-- Membership is preserved from dropWhile back to the original list. -/
theorem mem_of_mem_dropWhile {p : Char → Bool} :
    ∀ {l : List Char} {c : Char}, c ∈ l.dropWhile p → c ∈ l := by
  intro l
  induction l with
  | nil => intro c h; simp at h
  | cons x xs ih =>
    intro c h
    rw [List.dropWhile_cons] at h
    by_cases hx : p x = true
    · rw [if_pos hx] at h
      exact List.mem_cons_of_mem _ (ih h)
    · rw [if_neg hx] at h
      exact h

/-- Characters of the stripped string come from the original string. -/
theorem mem_of_mem_pyStrip {c : Char} {l : List Char} (h : c ∈ pyStrip l) :
    c ∈ l := by
  unfold pyStrip at h
  rw [List.mem_reverse] at h
  have h1 := mem_of_mem_dropWhile h
  rw [List.mem_reverse] at h1
  exact mem_of_mem_dropWhile h1

/-- The modelled int conversion of a minus-free string is nonnegative. -/
theorem pyInt_nonneg {l : List Char} (hneg : ('-') ∉ l) {n : Int}
    (h : pyInt l = some n) : 0 ≤ n := by
  unfold pyInt pyIntCore at h
  rcases hs : pyStrip l with _ | ⟨c, cs⟩
  · rw [hs] at h
    exact absurd h (by simp)
  · rw [hs] at h
    dsimp only [] at h
    have hc : c ≠ '-' := by
      intro hcc
      refine hneg (mem_of_mem_pyStrip ?_)
      rw [hs, ← hcc]
      exact List.mem_cons_self c cs
    rw [if_neg hc] at h
    by_cases hp : c = '+'
    · rw [if_pos hp] at h
      rcases Option.map_eq_some'.mp h with ⟨m, _, rfl⟩
      exact Int.natCast_nonneg m
    · rw [if_neg hp] at h
      rcases Option.map_eq_some'.mp h with ⟨m, _, rfl⟩
      exact Int.natCast_nonneg m

/-- Any value produced by the unsigned decimal reader is nonnegative. -/
theorem decFrac?_nonneg {l : List Char} {q : ℚ} (h : decFrac? l = some q) :
    0 ≤ q := by
  simp only [decFrac?] at h
  split at h
  · split at h
    · injection h with h
      subst h
      positivity
    · exact absurd h (by simp)
  · split at h
    · injection h with h
      subst h
      positivity
    · exact absurd h (by simp)

/-- A string without the letter n in either case is not a NaN spelling. -/
theorem isNanSpelling_eq_false {l : List Char} (hn : ('n') ∉ l)
    (hN : ('N') ∉ l) : isNanSpelling l = false := by
  rcases l with _ | ⟨c1, l⟩
  · rfl
  rcases l with _ | ⟨c2, l⟩
  · rfl
  rcases l with _ | ⟨c3, l⟩
  · rfl
  rcases l with _ | ⟨c4, l⟩
  · have h1 : c1 ≠ 'n' := fun h => hn (by simp [h])
    have h2 : c1 ≠ 'N' := fun h => hN (by simp [h])
    simp [isNanSpelling, h1, h2]
  · rfl

/-- On input without the letter n the float body never produces NaN: a
successful conversion is a finite nonnegative value or a positive infinity,
and either compares nonnegative. -/
theorem pyFloatBody_isNonneg {l : List Char} (hn : ('n') ∉ l)
    (hN : ('N') ∉ l) {v : PyFloat} (h : pyFloatBody l = some v) :
    v.isNonneg = true := by
  unfold pyFloatBody at h
  rw [isNanSpelling_eq_false hn hN] at h
  simp only [Bool.false_eq_true, if_false] at h
  by_cases hinf : isInfSpelling l = true
  · rw [if_pos hinf] at h
    injection h with h
    subst h
    rfl
  · rw [if_neg hinf] at h
    rcases Option.map_eq_some'.mp h with ⟨q, hq, rfl⟩
    simp only [PyFloat.isNonneg, decide_eq_true_eq]
    exact decFrac?_nonneg hq

/-- The modelled float conversion of a string without a minus sign and
without the letter n compares nonnegative whenever it succeeds. -/
theorem pyFloat_isNonneg {l : List Char} (hneg : ('-') ∉ l) (hn : ('n') ∉ l)
    (hN : ('N') ∉ l) {v : PyFloat} (h : pyFloat l = some v) :
    v.isNonneg = true := by
  unfold pyFloat pyFloatCore at h
  rcases hs : pyStrip l with _ | ⟨c, cs⟩
  · rw [hs] at h
    exact absurd h (by simp)
  · rw [hs] at h
    dsimp only [] at h
    have hc : c ≠ '-' := by
      intro hcc
      refine hneg (mem_of_mem_pyStrip ?_)
      rw [hs, ← hcc]
      exact List.mem_cons_self c cs
    rw [if_neg hc] at h
    have hcs_n : ('n') ∉ c :: cs := by
      intro hx
      exact hn (mem_of_mem_pyStrip (by rw [hs]; exact hx))
    have hcs_N : ('N') ∉ c :: cs := by
      intro hx
      exact hN (mem_of_mem_pyStrip (by rw [hs]; exact hx))
    by_cases hp : c = '+'
    · rw [if_pos hp] at h
      exact pyFloatBody_isNonneg (fun hx => hcs_n (List.mem_cons_of_mem _ hx))
        (fun hx => hcs_N (List.mem_cons_of_mem _ hx)) h
    · rw [if_neg hp] at h
      exact pyFloatBody_isNonneg hcs_n hcs_N h

/-- The duration loop reports value 0 whenever it reports an error. -/
theorem parse_duration_go_error_value :
    ∀ (ts : List (List Char)) (acc : ℚ),
      (parse_duration_go ts acc).errored = true →
      (parse_duration_go ts acc).value = 0 := by
  intro ts
  induction ts with
  | nil =>
    intro acc h
    simp [parse_duration_go] at h
  | cons t ts ih =>
    intro acc h
    rw [parse_duration_go] at h ⊢
    by_cases hm : 'm' ∈ t
    · rw [if_pos hm] at h ⊢
      rcases hp : pyInt (t.filter (fun c => decide (c ≠ 'm'))) with _ | n
      · rfl
      · rw [hp] at h
        exact ih _ h
    · rw [if_neg hm] at h ⊢
      by_cases hs2 : 's' ∈ t
      · rw [if_pos hs2] at h ⊢
        rcases hp : pyInt (t.filter (fun c => decide (c ≠ 's'))) with _ | n
        · rfl
        · rw [hp] at h
          exact ih _ h
      · rw [if_neg hs2] at h ⊢
        exact ih _ h

/-- The duration loop keeps a nonnegative accumulator nonnegative when no
token carries a minus sign. -/
theorem parse_duration_go_nonneg :
    ∀ (ts : List (List Char)) (acc : ℚ),
      (∀ t ∈ ts, ('-') ∉ t) → 0 ≤ acc →
      0 ≤ (parse_duration_go ts acc).value := by
  intro ts
  induction ts with
  | nil =>
    intro acc _ ha
    simpa [parse_duration_go] using ha
  | cons t ts ih =>
    intro acc hng ha
    have hngt : ('-') ∉ t := hng t (by simp)
    have hngts : ∀ u ∈ ts, ('-') ∉ u := fun u hu => hng u (by simp [hu])
    rw [parse_duration_go]
    by_cases hm : 'm' ∈ t
    · rw [if_pos hm]
      rcases hp : pyInt (t.filter (fun c => decide (c ≠ 'm'))) with _ | n
      · norm_num
      · have hn : (0 : Int) ≤ n :=
          pyInt_nonneg (fun hmem => hngt (List.mem_of_mem_filter hmem)) hp
        exact ih _ hngts (add_nonneg ha (by exact_mod_cast hn))
    · rw [if_neg hm]
      by_cases hs2 : 's' ∈ t
      · rw [if_pos hs2]
        rcases hp : pyInt (t.filter (fun c => decide (c ≠ 's'))) with _ | n
        · norm_num
        · have hn : (0 : Int) ≤ n :=
            pyInt_nonneg (fun hmem => hngt (List.mem_of_mem_filter hmem)) hp
          refine ih _ hngts (add_nonneg ha (div_nonneg (by exact_mod_cast hn) (by norm_num)))
      · rw [if_neg hs2]
        exact ih _ hngts ha

/-- Tokens without the letters m and s are skipped without any effect. -/
theorem parse_duration_go_skip :
    ∀ (ts : List (List Char)) (acc : ℚ),
      (∀ t ∈ ts, 'm' ∉ t ∧ 's' ∉ t) → parse_duration_go ts acc = ⟨acc, false⟩ := by
  intro ts
  induction ts with
  | nil =>
    intro acc _
    rfl
  | cons t ts ih =>
    intro acc h
    obtain ⟨hm, hs2⟩ := h t (by simp)
    rw [parse_duration_go, if_neg hm, if_neg hs2]
    exact ih _ (fun u hu => h u (by simp [hu]))

/-- The duration value of a minus-free string is nonnegative. -/
theorem parse_duration_value_nonneg {s : String} (h : ('-') ∉ s.toList) :
    0 ≤ (parse_duration s).value :=
  parse_duration_go_nonneg _ 0
    (fun _ ht hmem => h (mem_of_mem_pySplit ht hmem)) le_rfl

/-- The amount value of a string without a minus sign and without the letter
n compares nonnegative (on failure the value defaults to 0). -/
theorem parse_amount_isNonneg {s : String} (hneg : ('-') ∉ s.toList)
    (hn : ('n') ∉ s.toList) (hN : ('N') ∉ s.toList) :
    (parse_amount s).value.isNonneg = true := by
  unfold parse_amount
  rcases hp : pyFloat ((s.toList.filter (fun c => decide (c ≠ '$'))).filter
      (fun c => decide (c ≠ ','))) with _ | v
  · simp [PyFloat.isNonneg]
  · have hv : v.isNonneg = true := by
      refine pyFloat_isNonneg ?_ ?_ ?_ hp
      · intro hmem
        exact hneg (List.mem_of_mem_filter (List.mem_of_mem_filter hmem))
      · intro hmem
        exact hn (List.mem_of_mem_filter (List.mem_of_mem_filter hmem))
      · intro hmem
        exact hN (List.mem_of_mem_filter (List.mem_of_mem_filter hmem))
    simpa using hv

/-- Every element of a successful mapOrNone run comes from some input element. -/
theorem mapOrNone_mem {α β : Type} {f : α → Option β} :
    ∀ {l : List α} {bs : List β}, mapOrNone f l = some bs →
      ∀ b ∈ bs, ∃ a ∈ l, f a = some b := by
  intro l
  induction l with
  | nil =>
    intro bs h b hb
    simp only [mapOrNone, Option.some.injEq] at h
    subst h
    simp at hb
  | cons a l ih =>
    intro bs h b hb
    simp only [mapOrNone] at h
    rcases ha : f a with _ | b1
    · rw [ha] at h
      simp at h
    · rw [ha] at h
      rcases hrec : mapOrNone f l with _ | bs1
      · rw [hrec] at h
        simp at h
      · rw [hrec] at h
        simp only [Option.some.injEq] at h
        subst h
        rcases List.mem_cons.mp hb with rfl | hb1
        · exact ⟨a, by simp, ha⟩
        · rcases ih hrec b hb1 with ⟨a1, ha1, hfa⟩
          exact ⟨a1, by simp [ha1], hfa⟩

/-- A successful normalize_row is fully determined by the parsed date and the
raw fields. -/
theorem normalize_row_eq {cols : List String} {u : String} {r : RawRow}
    {w : WorkRecord} (h : normalize_row cols u r = some w) :
    ∃ d, parseDate r.workDate = some d ∧
      w = { username := u, workDate := fmtDate d, duration := r.duration,
            duration_minutes := (parse_duration r.duration).value,
            payout := r.payout,
            payout_amount := (parse_amount r.payout).value,
            payType := r.payType, status := r.status,
            month_year := fmtMonthYear d,
            itemID := if "itemID" ∈ cols then r.itemID
                      else if "itemId" ∈ cols then r.itemId
                      else none } := by
  unfold normalize_row at h
  rcases hd : parseDate r.workDate with _ | d
  · rw [hd] at h
    exact absurd h (by simp)
  · rw [hd] at h
    simp only [Option.some.injEq] at h
    exact ⟨d, rfl, h.symm⟩

/-- Every record produced by normalize_row carries the supplied username. -/
theorem normalize_row_username {cols : List String} {u : String} {r : RawRow}
    {w : WorkRecord} (h : normalize_row cols u r = some w) : w.username = u := by
  rcases normalize_row_eq h with ⟨d, _, rfl⟩
  rfl

/-- normalize_row never reads the username-like column of the raw row. -/
theorem normalize_row_eraseUser {cols : List String} {u : String} {r r' : RawRow}
    (h : eraseUser r = eraseUser r') :
    normalize_row cols u r = normalize_row cols u r' := by
  cases r
  cases r'
  simp only [eraseUser, RawRow.mk.injEq, and_true] at h
  obtain ⟨h1, h2, h3, h4, h5, h6, h7⟩ := h
  subst h1; subst h2; subst h3; subst h4; subst h5; subst h6; subst h7
  rfl

/-- Two row lists that agree outside the username-like column normalize
identically. -/
theorem mapOrNone_eraseUser_congr {cols : List String} {u : String} :
    ∀ (l l' : List RawRow), l.map eraseUser = l'.map eraseUser →
      mapOrNone (normalize_row cols u) l = mapOrNone (normalize_row cols u) l' := by
  intro l
  induction l with
  | nil =>
    intro l' h
    cases l' with
    | nil => rfl
    | cons b bs => simp at h
  | cons a l ih =>
    intro l' h
    cases l' with
    | nil => simp at h
    | cons b bs =>
      simp only [List.map_cons, List.cons.injEq] at h
      have h1 : normalize_row cols u a = normalize_row cols u b :=
        normalize_row_eraseUser h.1
      simp only [mapOrNone, h1, ih bs h.2]

/-- Two successive filters commute. -/
theorem filter_swap (l : List Char) (p q : Char → Bool) :
    (l.filter p).filter q = (l.filter q).filter p := by
  induction l with
  | nil => rfl
  | cons c cs ih =>
    by_cases hp : p c <;> by_cases hq : q c <;>
      simp [List.filter_cons, hp, hq, ih]

/-- Membership in the missing-columns list is exactly membership in the
required set minus the presented columns. -/
theorem mem_missing_columns {cols : List String} {c : String} :
    c ∈ missing_columns cols ↔ (c ∈ required_columns ∧ c ∉ cols) := by
  simp [missing_columns]

/-! Claim theorems. -/

/-- Claim C1, counterexample: the batch batchNeg passes validation, its save
succeeds, and the stored record has duration_minutes = -5 < 0 (the int
conversion accepts signed numerals); moreover the batch batchNan, whose
payout is the minus-free string NAN, also passes validation and stores
payout_amount = NaN, which does not compare nonnegative.  Both refute the
claimed invariant. -/
theorem C1_counterexample :
    (validate_dataframe batchNeg.cols = .ok true ∧
      ∃ recs, save_uploaded_data batchNeg "alice" = some recs ∧
        ∃ r ∈ recs, r.duration_minutes < 0) ∧
    (validate_dataframe batchNan.cols = .ok true ∧
      ∃ recs, save_uploaded_data batchNan "alice" = some recs ∧
        ∃ r ∈ recs, r.payout_amount = PyFloat.nan ∧
          r.payout_amount.isNonneg = false) := by
  constructor
  · refine ⟨rfl, ⟨_, rfl, ?_⟩⟩
    refine ⟨_, List.mem_cons_self _ _, ?_⟩
    show (parse_duration "-5m").value < 0
    have h : (parse_duration "-5m").value = 0 + ((-5 : Int) : ℚ) := rfl
    rw [h]
    norm_num
  · refine ⟨rfl, ⟨_, rfl, ?_⟩⟩
    refine ⟨_, List.mem_cons_self _ _, ?_, ?_⟩
    · show (parse_amount "NAN").value = PyFloat.nan
      rfl
    · show (parse_amount "NAN").value.isNonneg = false
      rfl

/-- Claim C1 (amended): for every batch whose duration and payout strings
contain no minus sign and whose payout strings contain no letter n in either
case (excluding the NaN spellings the float constructor accepts), every
record stored by save_uploaded_data has nonnegative duration_minutes and a
payout_amount that compares nonnegative in the float order (parse failures
default the field to 0; an accepted infinity spelling stores a positive
infinity, which also compares nonnegative).  The unrestricted claim fails on
signed input and on NaN payouts: see the counterexample. -/
theorem C1_stored_nonneg_amended :
    ∀ (b : RawBatch) (u : String) (recs : List WorkRecord),
      save_uploaded_data b u = some recs →
      (∀ row ∈ b.rows, ('-') ∉ row.duration.toList ∧
          ('-') ∉ row.payout.toList ∧ ('n') ∉ row.payout.toList ∧
          ('N') ∉ row.payout.toList) →
      ∀ r ∈ recs, 0 ≤ r.duration_minutes ∧ r.payout_amount.isNonneg = true := by
  intro b u recs hsave hrows r hr
  rcases mapOrNone_mem hsave r hr with ⟨a, ha, hfa⟩
  rcases normalize_row_eq hfa with ⟨d, _, rfl⟩
  obtain ⟨h1, h2, h3, h4⟩ := hrows a ha
  exact ⟨parse_duration_value_nonneg h1, parse_amount_isNonneg h2 h3 h4⟩

/-- Ingesting batchPos as alice stores exactly recPos. -/
theorem save_batchPos : save_uploaded_data batchPos "alice" = some [recPos] := by
  have h : save_uploaded_data batchPos "alice" =
      some [⟨"alice", "2024-02-03", "1m", 0 + ((1 : Int) : ℚ), "$2",
             .num ((2 : Nat) : ℚ), "hourly", "approved", "2024-02", none⟩] := rfl
  rw [h]
  norm_num [recPos, WorkRecord.mk.injEq, PyFloat.num.injEq]

/-- Claim C1, witness: the amended theorem applied to the concrete minus-free
and n-free batch batchPos. -/
theorem C1_witness :
    0 ≤ recPos.duration_minutes ∧ recPos.payout_amount.isNonneg = true :=
  C1_stored_nonneg_amended batchPos "alice" [recPos] save_batchPos
    (by decide) recPos (by simp)

/-- Claim C2: every stored record carries the authenticated username, and the
content of an uploaded username-like column has no influence on the stored
records (the normalizer overwrites the username field unconditionally). -/
theorem C2_username_stamping :
    (∀ (b : RawBatch) (u : String) (recs : List WorkRecord),
        save_uploaded_data b u = some recs → ∀ r ∈ recs, r.username = u) ∧
    (∀ (b b' : RawBatch) (u : String), b.cols = b'.cols →
        b.rows.map eraseUser = b'.rows.map eraseUser →
        save_uploaded_data b u = save_uploaded_data b' u) := by
  constructor
  · intro b u recs h r hr
    rcases mapOrNone_mem h r hr with ⟨a, _, hfa⟩
    exact normalize_row_username hfa
  · intro b b' u hcols hrows
    unfold save_uploaded_data
    rw [hcols]
    exact mapOrNone_eraseUser_congr _ _ hrows

/-- Claim C2, witness: two uploads differing only in the username column store
the same records, stamped with the authenticated name alice. -/
theorem C2_witness :
    save_uploaded_data batchPos "alice" = save_uploaded_data batchU2 "alice" ∧
    recPos.username = "alice" :=
  ⟨C2_username_stamping.2 batchPos batchU2 "alice" rfl (by decide),
   C2_username_stamping.1 batchPos "alice" [recPos] save_batchPos recPos (by simp)⟩

/-- Claim C3, counterexample: parsing the empty string returns 0 with NO
ParseError signalled (str.split yields no tokens and nothing raises), while
the claim asserts a ParseError is signalled for the empty string. -/
theorem C3_counterexample :
    parse_duration "" = ⟨0, false⟩ ∧ (parse_duration "").errored ≠ true :=
  ⟨rfl, by decide⟩

/-- Claim C3 (amended): whenever duration parsing signals a ParseError the
returned value is 0, and no exception escapes (the parser is total); a token
whose numeric part fails int conversion, such as abcm, gives 0 with a
ParseError; the empty string gives 0 silently, with no ParseError. -/
theorem C3_duration_failure_amended :
    (∀ s : String,
        (parse_duration s).errored = true → (parse_duration s).value = 0) ∧
    parse_duration "abcm" = ⟨0, true⟩ ∧
    parse_duration "" = ⟨0, false⟩ :=
  ⟨fun _ h => parse_duration_go_error_value _ 0 h, rfl, rfl⟩

/-- Claim C3, witness: the amended theorem applied at the failing token. -/
theorem C3_witness : (parse_duration "abcm").value = 0 :=
  C3_duration_failure_amended.1 "abcm" rfl

/-- Claim C5, counterexample: on an empty record set the mean of the payout
column is the pandas NaN, so average_earning is not the number 0 the claim
asserts. -/
theorem C5_counterexample :
    (calculate_user_metrics []).average_earning = PyFloat.nan ∧
    (calculate_user_metrics []).average_earning ≠ PyFloat.num 0 :=
  ⟨rfl, by decide⟩

/-- Claim C5 (amended): on an empty record set the metrics are
total_earnings = 0, total_time_minutes = 0, days_worked = 0, total_tasks = 0
and average_earning = NaN rather than 0; no division by zero occurs, and
avg_hourly_rate is 0 whenever total_time_minutes is 0. -/
theorem C5_empty_metrics_amended :
    calculate_user_metrics [] = ⟨.num 0, 0, 0, .nan, 0⟩ ∧
    avg_hourly_rate (calculate_user_metrics []) = .num 0 ∧
    (∀ m : UserMetrics, m.total_time_minutes = 0 →
        avg_hourly_rate m = .num 0) := by
  have hgen : ∀ m : UserMetrics, m.total_time_minutes = 0 →
      avg_hourly_rate m = .num 0 := by
    intro m hm
    unfold avg_hourly_rate
    rw [hm, if_neg (lt_irrefl (0 : ℚ))]
  exact ⟨rfl, hgen _ rfl, hgen⟩

/-- Claim C5, witness: the division-by-zero guard applied to a metrics value
with zero total time. -/
theorem C5_witness : avg_hourly_rate ⟨.num 3, 0, 2, .num 1, 4⟩ = .num 0 :=
  C5_empty_metrics_amended.2.2 ⟨.num 3, 0, 2, .num 1, 4⟩ rfl

/-- Claim C6, counterexample: on the input 5$ the source parser deletes the
non-leading dollar sign and returns 5 with no error, while the parser worded
by the claim (strip a leading dollar only) fails, returning 0 with a
ParseError. -/
theorem C6_counterexample :
    parse_amount "5$" = ⟨.num 5, false⟩ ∧
    parse_amount_leading "5$" = ⟨.num 0, true⟩ := by
  decide

/-- Claim C6 (amended): parse_amount deletes every dollar sign anywhere in the
input (not only a leading one) and every comma, then parses the remainder as a
float; on failure it returns 0 with a ParseError.  Both examples of the claim
hold. -/
theorem C6_amount_parsing_amended :
    parse_amount "$1,234.56" = ⟨.num 1234.56, false⟩ ∧
    parse_amount "bad" = ⟨.num 0, true⟩ ∧
    ∀ s : String, parse_amount s = parse_amount_desc s := by
  refine ⟨?_, by decide, ?_⟩
  · have h : parse_amount "$1,234.56" =
        ⟨.num (((1234 : Nat) : ℚ) + ((56 : Nat) : ℚ) / (10 : ℚ) ^ (2 : Nat)),
         false⟩ := rfl
    rw [h]
    norm_num [AmountOutcome.mk.injEq, PyFloat.num.injEq]
  · intro s
    unfold parse_amount parse_amount_desc
    rw [filter_swap s.toList (fun c => decide (c ≠ '$')) (fun c => decide (c ≠ ','))]

/-- Claim C7: validation succeeds exactly when every required column name is
present; on failure the reported missing set is exactly the set of required
names not present (value content is never inspected); the concrete header
without payout fails with exactly payout missing. -/
theorem C7_validator :
    (∀ cols : List String,
        (∃ ok, validate_dataframe cols = .ok ok) ↔
          ∀ c ∈ required_columns, c ∈ cols) ∧
    (∀ (cols missing : List String), validate_dataframe cols = .error missing →
        ∀ c : String, c ∈ missing ↔ (c ∈ required_columns ∧ c ∉ cols)) ∧
    validate_dataframe ["workDate", "duration", "payType", "status"] =
      .error ["payout"] := by
  refine ⟨?_, ?_, rfl⟩
  · intro cols
    constructor
    · rintro ⟨ok, h⟩ c hc
      by_contra hcc
      have hmem : c ∈ missing_columns cols := mem_missing_columns.mpr ⟨hc, hcc⟩
      unfold validate_dataframe at h
      by_cases hmc : missing_columns cols = []
      · rw [hmc] at hmem
        simp at hmem
      · rw [if_neg hmc] at h
        exact absurd h (by simp)
    · intro hsub
      have hnil : missing_columns cols = [] := by
        rw [List.eq_nil_iff_forall_not_mem]
        intro c hcmem
        rcases mem_missing_columns.mp hcmem with ⟨h1, h2⟩
        exact h2 (hsub c h1)
      exact ⟨true, by unfold validate_dataframe; rw [if_pos hnil]⟩
  · intro cols missing h c
    unfold validate_dataframe at h
    by_cases hmc : missing_columns cols = []
    · rw [if_pos hmc] at h
      exact absurd h (by simp)
    · rw [if_neg hmc] at h
      injection h with h
      subst h
      exact mem_missing_columns

/-- Claim C7, witness: the missing-set characterization applied to the header
without payout. -/
theorem C7_witness :
    "payout" ∈ (["payout"] : List String) ↔
      ("payout" ∈ required_columns ∧
        "payout" ∉ ["workDate", "duration", "payType", "status"]) :=
  C7_validator.2.1 ["workDate", "duration", "payType", "status"] ["payout"] rfl
    "payout"

/-- Claim C8: an upload whose header fails validation is rejected whole: the
stored collection after the attempt equals the one before it, and the
missing-columns error is reported (validation runs strictly before any
write). -/
theorem C8_rejected_upload_not_persisted :
    ∀ (store : List WorkRecord) (b : RawBatch) (u : String)
      (missing : List String),
      validate_dataframe b.cols = .error missing →
      ingest store b u = (store, some (.missingColumns missing)) := by
  intro store b u missing h
  unfold ingest
  rw [h]

/-- Claim C8, witness: ingesting the payout-less batch changes nothing. -/
theorem C8_witness :
    ingest [] batchMissing "alice" = ([], some (.missingColumns ["payout"])) :=
  C8_rejected_upload_not_persisted [] batchMissing "alice" ["payout"] rfl

/-- Claim C9, counterexample: a user with the admin role who invokes the
clear-data operation removes nothing: the record stored under the invoking
username root is still stored afterwards, refuting the unrestricted claim. -/
theorem C9_counterexample :
    recRoot.username = "root" ∧ clear_data [recRoot] "root" "admin" = [recRoot] :=
  ⟨rfl, rfl⟩

/-- Claim C9 (amended): for a NON-admin user the clear-data operation removes
exactly the records carrying that username and leaves every other record
unchanged; for an admin the store is untouched (see the counterexample). -/
theorem C9_clear_data_amended :
    ∀ (store : List WorkRecord) (u role : String), role ≠ "admin" →
      clear_data store u role = store.filter (fun r => decide (r.username ≠ u)) ∧
      (∀ r ∈ clear_data store u role, r.username ≠ u) ∧
      (∀ r ∈ store, r.username ≠ u → r ∈ clear_data store u role) := by
  intro store u role h
  have he : clear_data store u role =
      store.filter (fun r => decide (r.username ≠ u)) := by
    unfold clear_data
    rw [if_neg h]
  refine ⟨he, ?_, ?_⟩
  · intro r hr
    rw [he] at hr
    simpa using List.of_mem_filter hr
  · intro r hr hru
    rw [he]
    exact List.mem_filter.mpr ⟨hr, by simpa using hru⟩

/-- Claim C9, witness: bob (role user) clears his data and only the carol
record remains. -/
theorem C9_witness : clear_data [recBob, recCarol] "bob" "user" = [recCarol] := by
  have h := C9_clear_data_amended [recBob, recCarol] "bob" "user" (by decide)
  rw [h.1]
  rfl

/-- Claim C10, counterexample: the single token 5m30s takes the minutes branch
but is NOT counted as minutes: deleting only the letter m leaves 530s, the int
conversion fails, and the whole parse returns 0 with a ParseError, contrary to
the claim that such a token is counted as minutes. -/
theorem C10_counterexample :
    parse_duration "5m30s" = ⟨0, true⟩ ∧ (parse_duration "5m30s").value ≠ 5 :=
  ⟨rfl, by decide⟩

/-- Claim C10 (amended): tokens containing neither m nor s are silently
skipped with no error, so parse_duration of 90 is 0 with no ParseError; and a
token containing m is dispatched to the minutes branch even when it also
contains s, contributing the int of its m-deleted text when that conversion
succeeds and otherwise aborting the parse with 0 and a ParseError, which is
what happens whenever the letter s remains in the text. -/
theorem C10_token_dispatch_amended :
    (∀ s : String, (∀ t ∈ pySplit s.toList, 'm' ∉ t ∧ 's' ∉ t) →
        parse_duration s = ⟨0, false⟩) ∧
    parse_duration "90" = ⟨0, false⟩ ∧
    (∀ t : List Char, t ≠ [] → (∀ c ∈ t, c.isWhitespace = false) → 'm' ∈ t →
        (∀ n : Int, pyInt (t.filter (fun c => decide (c ≠ 'm'))) = some n →
            parse_duration (String.mk t) = ⟨(n : ℚ), false⟩) ∧
        (pyInt (t.filter (fun c => decide (c ≠ 'm'))) = none →
            parse_duration (String.mk t) = ⟨0, true⟩)) := by
  refine ⟨?_, rfl, ?_⟩
  · intro s h
    exact parse_duration_go_skip _ 0 h
  · intro t hne hws hm
    have hsplit : pySplit (String.mk t).toList = [t] := pySplit_single hws hne
    constructor
    · intro n hn
      unfold parse_duration
      rw [hsplit]
      simp only [parse_duration_go]
      rw [if_pos hm, hn]
      simp [parse_duration_go]
    · intro hn
      unfold parse_duration
      rw [hsplit]
      simp only [parse_duration_go]
      rw [if_pos hm, hn]

/-- Claim C10, witness: the amended theorem at a token-free-of-m-and-s input
and at the concrete minutes token 10m. -/
theorem C10_witness :
    parse_duration "xyz 42" = ⟨0, false⟩ ∧
    parse_duration (String.mk ['1', '0', 'm']) = ⟨((10 : Int) : ℚ), false⟩ :=
  ⟨C10_token_dispatch_amended.1 "xyz 42" (by decide),
   (C10_token_dispatch_amended.2.2 ['1', '0', 'm'] (by decide) (by decide)
       (by decide)).1 10 (by decide)⟩
